import Mathlib

/-!
# Verification of the claude-session-dashboard log-ingestion and stats engine

Shallow embedding of `apps/web/src/lib/parsers/stats-parser.ts` and
`apps/web/src/lib/scanner/session-scanner.ts` (and, modelled from the spec,
the request-id-deduplicated token accumulation of the session detail parser,
whose implementation file is not part of the sources at hand).

File-system access, `Date` parsing and the summary/detail parsers themselves
are modelled as explicit oracle parameters: the embedded functions are the
pure data transformations the TypeScript performs on the oracles' answers.
-/

namespace Dashboard

/-- Association-list lookup: first binding wins (models JS `Map.get` /
object property lookup, where keys are unique). -/
def lookup? (k : String) : List (String × α) → Option α
  | [] => none
  | (k', v) :: rest => if k' = k then some v else lookup? k rest

/-- Association-list update: replace the first binding of `k` in place,
or append a new one (models JS `Map.set` / `obj[k] = v`). -/
def setKey (k : String) (v : α) : List (String × α) → List (String × α)
  | [] => [(k, v)]
  | (k', v') :: rest =>
    if k' = k then (k, v) :: rest else (k', v') :: setKey k v rest

/-! ## Data model (`apps/web/src/lib/parsers/types.ts` as used by the core) -/

/-- Per-model token usage, the four categories of the stats schema. -/
structure TokenUsage where
  inputTokens : Nat
  outputTokens : Nat
  cacheReadInputTokens : Nat
  cacheCreationInputTokens : Nat
deriving DecidableEq

/-- One conversation turn (only what the stats engine reads: the list length). -/
structure Turn where
  role : String
  timestamp : String
deriving DecidableEq

/-- The slice of `SessionDetail` consumed by the stats engine. -/
structure SessionDetail where
  turns : List Turn
  toolFrequency : List (String × Nat)
  tokensByModel : List (String × TokenUsage)
deriving DecidableEq

/-- The slice of `SessionSummary` consumed by the scanner and the stats
engine.  `lastActiveAt` is optional: the source guards it with
`?? startedAt`. -/
structure SessionSummary where
  sessionId : String
  projectPath : String
  projectName : String
  startedAt : String
  lastActiveAt : Option String
  durationMs : Nat
  messageCount : Nat
  isActive : Bool
deriving DecidableEq

/-- `SessionSummaryWithPath extends SessionSummary` with the absolute
JSONL file path (server-side only). -/
structure SessionSummaryWithPath extends SessionSummary where
  filePath : String
deriving DecidableEq

structure DailyActivity where
  date : String
  messageCount : Nat
  sessionCount : Nat
  toolCallCount : Nat
deriving DecidableEq

structure DailyModelTokens where
  date : String
  tokensByModel : List (String × Nat)
deriving DecidableEq

structure LongestSession where
  sessionId : String
  duration : Nat
  messageCount : Nat
  timestamp : String
deriving DecidableEq

/-- The versioned, dated aggregate snapshot (`StatsCache` in `types.ts`). -/
structure StatsCache where
  version : Nat
  lastComputedDate : String
  dailyActivity : List DailyActivity
  dailyModelTokens : List DailyModelTokens
  modelUsage : List (String × TokenUsage)
  totalSessions : Nat
  totalMessages : Nat
  longestSession : LongestSession
  firstSessionDate : String
  hourCounts : List (String × Nat)
deriving DecidableEq

/-! ## `stats-parser.ts` -/

/-- `extractDateString`: `isoOrDate.split('T')[0]`, i.e. the prefix of the
string before the first `T` (the whole string when no `T` occurs). -/
def extractDateString (isoOrDate : String) : String :=
  (isoOrDate.toList.takeWhile fun c => c ≠ 'T').asString

/-- JS string comparison `a < b`: lexicographic by code unit.  This is
`String.lt`, stated on the underlying character lists so that concrete
instances evaluate. -/
def strLt (a b : String) : Prop :=
  a.data < b.data

instance (a b : String) : Decidable (strLt a b) :=
  inferInstanceAs (Decidable (a.data < b.data))

/-- The date bucket of a session:
`extractDateString(s.lastActiveAt ?? s.startedAt)`. -/
def sessionDate (s : SessionSummary) : String :=
  extractDateString (s.lastActiveAt.getD s.startedAt)

/-- Helper for `chunks`: `cur` is the (reversed) chunk being filled and
`rem` how many elements it still accepts. -/
def chunksGo (batchSize : Nat) (cur : List α) (rem : Nat) : List α → List (List α)
  | [] => [cur.reverse]
  | x :: xs =>
    match rem with
    | 0 => cur.reverse :: chunksGo batchSize [x] (batchSize - 1) xs
    | r + 1 => chunksGo batchSize (x :: cur) r xs

/-- Fixed-size batching of a list (the `for (let i = 0; i < n; i += batchSize)`
slicing in `parseDetailsInBatches`). -/
def chunks (batchSize : Nat) (xs : List α) : List (List α) :=
  match xs with
  | [] => []
  | x :: rest => chunksGo batchSize [x] (batchSize - 1) rest

/-- One batch of `parseDetailsInBatches`: attempt each parse (`try/catch`
modelled as `Option`), keep the successes paired with their session id. -/
def parseBatch (parseD : SessionSummaryWithPath → Option SessionDetail)
    (batch : List SessionSummaryWithPath) : List (String × SessionDetail) :=
  batch.filterMap fun s => (parseD s).map fun d => (s.sessionId, d)

/-- `parseDetailsInBatches`: batched detail parsing; failed parses are
skipped; results inserted into a map keyed by session id. -/
def parseDetailsInBatches (parseD : SessionSummaryWithPath → Option SessionDetail)
    (sessions : List SessionSummaryWithPath) (batchSize : Nat := 10) :
    List (String × SessionDetail) :=
  (chunks batchSize sessions).foldl
    (fun results batch =>
      (parseBatch parseD batch).foldl (fun r kv => setKey kv.1 kv.2 r) results)
    []

/-- The mutable per-date activity cell of the enrichment loop. -/
structure DailyCounts where
  messageCount : Nat
  sessionCount : Nat
  toolCallCount : Nat
deriving DecidableEq

/-- `updateHourCounts`: bump the bucket named by the start hour.  The
`if (!startedAt) return` guard is the empty-string case; the environment-
dependent `new Date(startedAt).getHours().toString()` is the oracle
`hourOf`. -/
def updateHourCounts (hourOf : String → String) (hourCounts : List (String × Nat))
    (s : SessionSummary) : List (String × Nat) :=
  if s.startedAt = "" then hourCounts
  else
    let hour := hourOf s.startedAt
    setKey hour ((lookup? hour hourCounts).getD 0 + 1) hourCounts

/-- `Object.values(toolFrequency).reduce((sum, n) => sum + n, 0)`. -/
def toolCallSum (toolFrequency : List (String × Nat)) : Nat :=
  (toolFrequency.map Prod.snd).foldl (· + ·) 0

/-- The `dailyModelTokens` inner loop of `mergeRecentSessions` (and of
`computeStatsFromSessions`): for each model of the parsed detail, add
`usage.inputTokens + usage.outputTokens` to the day's entry — the source
comments that cache tokens are excluded from daily totals. -/
def addDayTokens (dayTokens : List (String × Nat))
    (tokensByModel : List (String × TokenUsage)) : List (String × Nat) :=
  tokensByModel.foldl
    (fun dt mu =>
      setKey mu.1 ((lookup? mu.1 dt).getD 0 + (mu.2.inputTokens + mu.2.outputTokens)) dt)
    dayTokens

/-- The aggregate `modelUsage` inner loop: add each of the four token
categories independently. -/
def addModelUsage (modelUsage : List (String × TokenUsage))
    (tokensByModel : List (String × TokenUsage)) : List (String × TokenUsage) :=
  tokensByModel.foldl
    (fun acc mu =>
      let existing := (lookup? mu.1 acc).getD ⟨0, 0, 0, 0⟩
      setKey mu.1
        ⟨existing.inputTokens + mu.2.inputTokens,
         existing.outputTokens + mu.2.outputTokens,
         existing.cacheReadInputTokens + mu.2.cacheReadInputTokens,
         existing.cacheCreationInputTokens + mu.2.cacheCreationInputTokens⟩ acc)
    modelUsage

/-- The accumulator threaded through the `for (const s of recentSessions)`
loop of `mergeRecentSessions`. -/
structure MergeAcc where
  activityMap : List (String × DailyCounts)
  modelTokensMap : List (String × List (String × Nat))
  hourCounts : List (String × Nat)
  modelUsage : List (String × TokenUsage)
  additionalMessages : Nat
  longestSession : LongestSession
deriving DecidableEq

/-- One iteration of the `mergeRecentSessions` enrichment loop. -/
def mergeStep (hourOf : String → String) (detailMap : List (String × SessionDetail))
    (acc : MergeAcc) (s : SessionSummaryWithPath) : MergeAcc :=
  let date := sessionDate s.toSessionSummary
  let cur := (lookup? date acc.activityMap).getD ⟨0, 0, 0⟩
  let cur := { cur with sessionCount := cur.sessionCount + 1 }
  match lookup? s.sessionId detailMap with
  | some detail =>
    let cur := { cur with
      messageCount := cur.messageCount + detail.turns.length,
      toolCallCount := cur.toolCallCount + toolCallSum detail.toolFrequency }
    let dayTokens := addDayTokens ((lookup? date acc.modelTokensMap).getD [])
      detail.tokensByModel
    { activityMap := setKey date cur acc.activityMap,
      modelTokensMap := setKey date dayTokens acc.modelTokensMap,
      hourCounts := updateHourCounts hourOf acc.hourCounts s.toSessionSummary,
      modelUsage := addModelUsage acc.modelUsage detail.tokensByModel,
      additionalMessages := acc.additionalMessages + detail.turns.length,
      longestSession :=
        if acc.longestSession.duration < s.durationMs then
          ⟨s.sessionId, s.durationMs, detail.turns.length, s.lastActiveAt.getD s.startedAt⟩
        else acc.longestSession }
  | none =>
    let cur := { cur with messageCount := cur.messageCount + s.messageCount }
    { activityMap := setKey date cur acc.activityMap,
      modelTokensMap :=
        if (lookup? date acc.modelTokensMap).isSome then acc.modelTokensMap
        else setKey date [] acc.modelTokensMap,
      hourCounts := updateHourCounts hourOf acc.hourCounts s.toSessionSummary,
      modelUsage := acc.modelUsage,
      additionalMessages := acc.additionalMessages + s.messageCount,
      longestSession :=
        if acc.longestSession.duration < s.durationMs then
          ⟨s.sessionId, s.durationMs, s.messageCount, s.lastActiveAt.getD s.startedAt⟩
        else acc.longestSession }

/-- The `summaries.filter(...)` of `mergeRecentSessions`: sessions whose
date (string-compared, as in JS) is strictly after the cutoff. -/
def recentSessionsOf (stats : StatsCache) (summaries : List SessionSummaryWithPath) :
    List SessionSummaryWithPath :=
  let cutoffDate := extractDateString stats.lastComputedDate
  summaries.filter fun s => strLt cutoffDate (sessionDate s.toSessionSummary)

/-- Rebuild the sorted `dailyActivity` array from the map
(`.sort((a, b) => (a.date < b.date ? -1 : 1))`; map keys are unique, so the
comparator never meets equal dates and the sort is plain ascending). -/
def sortedDailyActivity (activityMap : List (String × DailyCounts)) : List DailyActivity :=
  List.insertionSort (fun a b => ¬ strLt b.date a.date)
    (activityMap.map fun p => DailyActivity.mk p.1 p.2.messageCount p.2.sessionCount
      p.2.toolCallCount)

/-- Rebuild the sorted `dailyModelTokens` array from the map. -/
def sortedDailyModelTokens (modelTokensMap : List (String × List (String × Nat))) :
    List DailyModelTokens :=
  List.insertionSort (fun a b => ¬ strLt b.date a.date)
    (modelTokensMap.map fun p => DailyModelTokens.mk p.1 p.2)

/-- `mergeRecentSessions`: filter the scan result to sessions strictly after
the snapshot's cutoff, parse their details in batches, and fold the delta
into copies of the snapshot's aggregates. -/
def mergeRecentSessions (parseD : SessionSummaryWithPath → Option SessionDetail)
    (hourOf : String → String) (stats : StatsCache)
    (summaries : List SessionSummaryWithPath) : StatsCache :=
  let recentSessions := recentSessionsOf stats summaries
  if recentSessions.isEmpty then stats
  else
    let detailMap := parseDetailsInBatches parseD recentSessions
    let acc0 : MergeAcc :=
      { activityMap := stats.dailyActivity.map fun e =>
          (e.date, ⟨e.messageCount, e.sessionCount, e.toolCallCount⟩),
        modelTokensMap := stats.dailyModelTokens.map fun e => (e.date, e.tokensByModel),
        hourCounts := stats.hourCounts,
        modelUsage := stats.modelUsage,
        additionalMessages := 0,
        longestSession := stats.longestSession }
    let acc := recentSessions.foldl (mergeStep hourOf detailMap) acc0
    { stats with
      dailyActivity := sortedDailyActivity acc.activityMap,
      dailyModelTokens := sortedDailyModelTokens acc.modelTokensMap,
      modelUsage := acc.modelUsage,
      totalSessions := stats.totalSessions + recentSessions.length,
      totalMessages := stats.totalMessages + acc.additionalMessages,
      longestSession := acc.longestSession,
      hourCounts := acc.hourCounts }

/-- The accumulator of the `computeStatsFromSessions` aggregation loop. -/
structure ComputeAcc where
  activityMap : List (String × DailyCounts)
  modelTokensMap : List (String × List (String × Nat))
  modelUsage : List (String × TokenUsage)
  hourCounts : List (String × Nat)
  totalMessages : Nat
  longestSession : LongestSession
  firstSessionDate : Option String
deriving DecidableEq

/-- One iteration of the `computeStatsFromSessions` loop (same body as the
enrichment loop, plus first-session-date tracking). -/
def computeStep (hourOf : String → String) (detailMap : List (String × SessionDetail))
    (acc : ComputeAcc) (s : SessionSummaryWithPath) : ComputeAcc :=
  let d := sessionDate s.toSessionSummary
  let cur := (lookup? d acc.activityMap).getD ⟨0, 0, 0⟩
  let cur := { cur with sessionCount := cur.sessionCount + 1 }
  let detail? := lookup? s.sessionId detailMap
  let acc :=
    match detail? with
    | some detail =>
      let cur := { cur with
        messageCount := cur.messageCount + detail.turns.length,
        toolCallCount := cur.toolCallCount + toolCallSum detail.toolFrequency }
      { acc with
        activityMap := setKey d cur acc.activityMap,
        modelTokensMap := setKey d
          (addDayTokens ((lookup? d acc.modelTokensMap).getD []) detail.tokensByModel)
          acc.modelTokensMap,
        modelUsage := addModelUsage acc.modelUsage detail.tokensByModel,
        totalMessages := acc.totalMessages + detail.turns.length }
    | none =>
      let cur := { cur with messageCount := cur.messageCount + s.messageCount }
      { acc with
        activityMap := setKey d cur acc.activityMap,
        modelTokensMap :=
          if (lookup? d acc.modelTokensMap).isSome then acc.modelTokensMap
          else setKey d [] acc.modelTokensMap,
        totalMessages := acc.totalMessages + s.messageCount }
  let msgCount := (detail?.map fun detail => detail.turns.length).getD s.messageCount
  { acc with
    hourCounts := updateHourCounts hourOf acc.hourCounts s.toSessionSummary,
    longestSession :=
      if acc.longestSession.duration < s.durationMs then
        ⟨s.sessionId, s.durationMs, msgCount, s.lastActiveAt.getD s.startedAt⟩
      else acc.longestSession,
    firstSessionDate :=
      match acc.firstSessionDate with
      | none => some s.startedAt
      | some f => if strLt s.startedAt f then some s.startedAt else some f }

/-- `computeStatsFromSessions`: build the aggregate from scratch by scanning
all sessions and parsing full details.  The session scan is the only
uncaught failure source inside the outer `try`; it is modelled as
`scanResult = none`, in which case the `catch` returns `null`. -/
def computeStatsFromSessions (parseD : SessionSummaryWithPath → Option SessionDetail)
    (hourOf : String → String) (now : String)
    (scanResult : Option (List SessionSummaryWithPath)) : Option StatsCache :=
  match scanResult with
  | none => none
  | some summaries =>
    let detailMap := parseDetailsInBatches parseD summaries
    let acc0 : ComputeAcc :=
      { activityMap := [], modelTokensMap := [], modelUsage := [], hourCounts := [],
        totalMessages := 0, longestSession := ⟨"", 0, 0, ""⟩, firstSessionDate := none }
    let acc := summaries.foldl (computeStep hourOf detailMap) acc0
    some
      { version := 1,
        lastComputedDate := now,
        dailyActivity := sortedDailyActivity acc.activityMap,
        dailyModelTokens := sortedDailyModelTokens acc.modelTokensMap,
        modelUsage := acc.modelUsage,
        totalSessions := summaries.length,
        totalMessages := acc.totalMessages,
        longestSession :=
          { acc.longestSession with
            timestamp :=
              if acc.longestSession.timestamp = "" then now
              else acc.longestSession.timestamp },
        firstSessionDate := acc.firstSessionDate.getD now,
        hourCounts := acc.hourCounts }

/-- The ambient state and I/O answers a `parseStats()` call observes:
snapshot `stat` result, the two cache tiers, the raw-file
read/parse/validate outcome, the session scan, the parse oracles and the
clock readings. -/
structure StatsEnv where
  snapshotStat : Option Nat
  memCache : Option (Nat × StatsCache)
  diskCache : Nat → Option StatsCache
  snapshotFileParse : Option StatsCache
  scan : Option (List SessionSummaryWithPath)
  parseD : SessionSummaryWithPath → Option SessionDetail
  hourOf : String → String
  today : String
  now : String
  nowMs : Nat
  mergedCache : Option (Nat × Nat × StatsCache)

/-- The merge-cache test of `maybeEnrichWithRecentSessions`: same snapshot
mtime and merged less than 60 seconds ago. -/
def mergedCacheHit (env : StatsEnv) (mtimeMs : Nat) : Option StatsCache :=
  match env.mergedCache with
  | some (m, mergedAt, data) =>
    if m = mtimeMs ∧ env.nowMs - mergedAt < 60000 then some data else none
  | none => none

/-- `maybeEnrichWithRecentSessions`: return the snapshot as-is when fresh,
else the merge-cache entry when valid, else enrich; a failing enrichment
(scanner failure) falls back to the unenriched snapshot. -/
def maybeEnrichWithRecentSessions (env : StatsEnv) (stats : StatsCache)
    (mtimeMs : Nat) : StatsCache :=
  if ¬ strLt (extractDateString stats.lastComputedDate) env.today then stats
  else
    match mergedCacheHit env mtimeMs with
    | some data => data
    | none =>
      match env.scan with
      | some summaries => mergeRecentSessions env.parseD env.hourOf stats summaries
      | none => stats

/-- `parseStats`: three cache tiers queried in order, first hit enriched and
returned; a missing snapshot file or a failed read/validation demotes to
full computation. -/
def parseStats (env : StatsEnv) : Option StatsCache :=
  match env.snapshotStat with
  | none => computeStatsFromSessions env.parseD env.hourOf env.now env.scan
  | some mtimeMs =>
    let tier1 : Option StatsCache :=
      match env.memCache with
      | some (m, data) => if m = mtimeMs then some data else none
      | none => none
    match tier1 with
    | some data => some (maybeEnrichWithRecentSessions env data mtimeMs)
    | none =>
      match env.diskCache mtimeMs with
      | some diskResult => some (maybeEnrichWithRecentSessions env diskResult mtimeMs)
      | none =>
        match env.snapshotFileParse with
        | some result => some (maybeEnrichWithRecentSessions env result mtimeMs)
        | none => computeStatsFromSessions env.parseD env.hourOf env.now env.scan

/-! ## `session-scanner.ts` -/

/-- A scanned project directory (`scanProjects()` output). -/
structure Project where
  dirName : String
  decodedPath : String
  projectName : String
  sessionFiles : List String
deriving DecidableEq

/-- An `fs.stat` answer (the fields the scanner reads). -/
structure FileStat where
  mtimeMs : Nat
  size : Nat
deriving DecidableEq

/-- The ambient state and I/O answers a scan observes: the project listing,
per-file `stat` results, the summary cache contents, the active-session
detector, the summary parser (whose module is not among the sources — an
oracle), the `extractSessionId`/`path.join` helpers, and
`new Date(x).getTime()` on the (possibly absent) last-active timestamp. -/
structure ScanEnv where
  projects : List Project
  statOf : String → String → Option FileStat
  summaryCache : List (String × (Nat × SessionSummary))
  isActive : String → String → Bool
  parseSummary : String → String → String → String → Nat → Option SessionSummary
  extractSessionId : String → String
  pathOf : String → String → String
  timeOf : Option String → Int

/-- One file of the `scanSessionsInternal` double loop, threading the
summary cache and the output list. -/
def scanFileStep (env : ScanEnv) (project : Project)
    (st : List (String × (Nat × SessionSummary)) × List SessionSummaryWithPath)
    (file : String) :
    List (String × (Nat × SessionSummary)) × List SessionSummaryWithPath :=
  let (cache, summaries) := st
  let sessionId := env.extractSessionId file
  let filePath := env.pathOf project.dirName file
  match env.statOf project.dirName file with
  | none => (cache, summaries)
  | some stat =>
    match lookup? sessionId cache with
    | some (mt, cachedSummary) =>
      if mt = stat.mtimeMs then
        let active := env.isActive project.dirName sessionId
        (cache, summaries ++ [⟨{ cachedSummary with isActive := active }, filePath⟩])
      else
        match env.parseSummary filePath sessionId project.decodedPath
            project.projectName stat.size with
        | none => (cache, summaries)
        | some summary =>
          let active := env.isActive project.dirName sessionId
          let summary := { summary with isActive := active }
          (setKey sessionId (stat.mtimeMs, summary) cache,
           summaries ++ [⟨summary, filePath⟩])
    | none =>
      match env.parseSummary filePath sessionId project.decodedPath
          project.projectName stat.size with
      | none => (cache, summaries)
      | some summary =>
        let active := env.isActive project.dirName sessionId
        let summary := { summary with isActive := active }
        (setKey sessionId (stat.mtimeMs, summary) cache,
         summaries ++ [⟨summary, filePath⟩])

/-- `scanSessionsInternal`: enumerate projects and session files, then sort
newest-last-active first
(`(a, b) => new Date(b.lastActiveAt).getTime() - new Date(a.lastActiveAt).getTime()`). -/
def scanSessionsInternal (env : ScanEnv) : List SessionSummaryWithPath :=
  let st := env.projects.foldl
    (fun st project => project.sessionFiles.foldl (scanFileStep env project) st)
    (env.summaryCache, [])
  List.insertionSort
    (fun a b => env.timeOf b.lastActiveAt ≤ env.timeOf a.lastActiveAt) st.2

/-- `scanAllSessions`: public form, strips `filePath` before the external
boundary. -/
def scanAllSessions (env : ScanEnv) : List SessionSummary :=
  (scanSessionsInternal env).map fun r => r.toSessionSummary

/-- `scanAllSessionsWithPaths`: internal form, keeps `filePath`. -/
def scanAllSessionsWithPaths (env : ScanEnv) : List SessionSummaryWithPath :=
  scanSessionsInternal env

/-- `getActiveSessions`: the `isActive` subset of the public form. -/
def getActiveSessions (env : ScanEnv) : List SessionSummary :=
  (scanAllSessions env).filter fun s => s.isActive

/-! ## Token accumulation of the Session Detail Parser

Modelled from the spec: `session-parser.ts` itself is not among the sources
(only its tests and callers are).  Spec §4.5: "Accumulates token usage per
model, deduplicated by request identifier: a model/usage pair is added to
the running total only the first time its request id is seen; subsequent
lines carrying the same request id (e.g., because a response streams across
several records) are ignored for counting purposes." -/

/-- A log line carrying a request id and a model/usage pair (lines without
all three take no part in token accounting). -/
structure UsageLine where
  requestId : String
  model : String
  usage : TokenUsage
deriving DecidableEq

/-- Add one usage record to a per-model running total, category-wise. -/
def addUsage (total u : TokenUsage) : TokenUsage :=
  ⟨total.inputTokens + u.inputTokens,
   total.outputTokens + u.outputTokens,
   total.cacheReadInputTokens + u.cacheReadInputTokens,
   total.cacheCreationInputTokens + u.cacheCreationInputTokens⟩

/-- Modelled from the spec: one line of token accumulation — skip when the
request id was already seen, otherwise record the id and add the usage to
the line's model total. -/
def accumTokensStep (st : List String × List (String × TokenUsage)) (line : UsageLine) :
    List String × List (String × TokenUsage) :=
  if st.1.contains line.requestId then st
  else
    (line.requestId :: st.1,
     setKey line.model
       (addUsage ((lookup? line.model st.2).getD ⟨0, 0, 0, 0⟩) line.usage) st.2)

/-- Modelled from the spec: per-model token totals of a log, deduplicated by
request id. -/
def accumTokens (lines : List UsageLine) : List (String × TokenUsage) :=
  (lines.foldl accumTokensStep ([], [])).2

/-- Keep only the first line per request id, given ids already seen. -/
def dedupFrom (seen : List String) : List UsageLine → List UsageLine
  | [] => []
  | l :: rest =>
    if seen.contains l.requestId then dedupFrom seen rest
    else l :: dedupFrom (l.requestId :: seen) rest

/-- Keep only the first line per request id. -/
def dedupByRequestId (lines : List UsageLine) : List UsageLine :=
  dedupFrom [] lines

/-- The per-day per-model token entry of an aggregate, for inspection. -/
def dailyTokenEntry (c : StatsCache) (date model : String) : Option Nat :=
  match c.dailyModelTokens.find? fun e => e.date = date with
  | some e => lookup? model e.tokensByModel
  | none => none

/-! ## Lemmas about the association-list and batching primitives -/

theorem lookup_setKey_self (k : String) (v : α) (m : List (String × α)) :
    lookup? k (setKey k v m) = some v := by
  induction m with
  | nil => simp [setKey, lookup?]
  | cons h t ih =>
    obtain ⟨k', v'⟩ := h
    by_cases hk : k' = k
    · simp [setKey, hk, lookup?]
    · simp [setKey, hk, lookup?, ih]

theorem lookup_setKey_other (k k₀ : String) (v : α) (m : List (String × α))
    (hne : k₀ ≠ k) : lookup? k₀ (setKey k v m) = lookup? k₀ m := by
  induction m with
  | nil =>
    have hne' : ¬(k = k₀) := fun h => hne h.symm
    simp [setKey, lookup?, hne']
  | cons hd t ih =>
    obtain ⟨k', v'⟩ := hd
    have hne' : ¬(k = k₀) := fun h => hne h.symm
    by_cases hk : k' = k
    · subst hk
      simp [setKey, lookup?, hne']
    · simp only [setKey, if_neg hk, lookup?]
      by_cases hk0 : k' = k₀ <;> simp [hk0, ih]

theorem chunksGo_flatten (batchSize : Nat) (xs : List α) :
    ∀ (cur : List α) (rem : Nat),
      (chunksGo batchSize cur rem xs).flatten = cur.reverse ++ xs := by
  induction xs with
  | nil => intro cur rem; simp [chunksGo]
  | cons x rest ih =>
    intro cur rem
    match rem with
    | 0 => simp [chunksGo, ih]
    | r + 1 => simp [chunksGo, ih]

theorem chunks_join (batchSize : Nat) (xs : List α) :
    (chunks batchSize xs).flatten = xs := by
  cases xs with
  | nil => rfl
  | cons x rest => simp [chunks, chunksGo_flatten]

/-- Batching is semantically transparent: `parseDetailsInBatches` builds the
same map as a single pass over all sessions. -/
theorem parseDetailsInBatches_eq (parseD : SessionSummaryWithPath → Option SessionDetail)
    (sessions : List SessionSummaryWithPath) (batchSize : Nat) :
    parseDetailsInBatches parseD sessions batchSize
      = (parseBatch parseD sessions).foldl (fun r kv => setKey kv.1 kv.2 r) [] := by
  have key : ∀ (cs : List (List SessionSummaryWithPath))
      (init : List (String × SessionDetail)),
      cs.foldl (fun results batch =>
          (parseBatch parseD batch).foldl (fun r kv => setKey kv.1 kv.2 r) results) init
        = (parseBatch parseD cs.flatten).foldl (fun r kv => setKey kv.1 kv.2 r) init := by
    intro cs
    induction cs with
    | nil => intro init; simp [parseBatch]
    | cons b rest ih =>
      intro init
      simp only [List.foldl_cons, List.flatten_cons, parseBatch, List.filterMap_append,
        List.foldl_append]
      exact ih _
  rw [parseDetailsInBatches, key, chunks_join]

/-! ## Lemmas about the per-day token fold -/

theorem addDayTokens_cons (dt : List (String × Nat)) (mu : String × TokenUsage)
    (rest : List (String × TokenUsage)) :
    addDayTokens dt (mu :: rest)
      = addDayTokens
          (setKey mu.1 ((lookup? mu.1 dt).getD 0 + (mu.2.inputTokens + mu.2.outputTokens)) dt)
          rest := rfl

theorem lookup_addDayTokens_notMem (tbm : List (String × TokenUsage)) :
    ∀ (dt : List (String × Nat)) (m : String), m ∉ tbm.map Prod.fst →
      lookup? m (addDayTokens dt tbm) = lookup? m dt := by
  induction tbm with
  | nil => intro dt m _; rfl
  | cons mu rest ih =>
    intro dt m hm
    rw [List.map_cons, List.mem_cons] at hm
    push_neg at hm
    obtain ⟨hne, hrest⟩ := hm
    rw [addDayTokens_cons, ih _ m hrest, lookup_setKey_other mu.1 m _ dt hne]

theorem lookup_addDayTokens_mem (tbm : List (String × TokenUsage)) :
    ∀ (dt : List (String × Nat)) (m : String) (u : TokenUsage),
      (tbm.map Prod.fst).Nodup → (m, u) ∈ tbm →
      lookup? m (addDayTokens dt tbm)
        = some ((lookup? m dt).getD 0 + (u.inputTokens + u.outputTokens)) := by
  induction tbm with
  | nil => intro dt m u _ hmem; cases hmem
  | cons mu rest ih =>
    intro dt m u hnodup hmem
    rw [List.map_cons] at hnodup
    have hhead := (List.nodup_cons.mp hnodup).1
    have htail := (List.nodup_cons.mp hnodup).2
    rcases List.mem_cons.mp hmem with heq | hmem'
    · have hm1 : mu.1 = m := by rw [← heq]
      have hu : mu.2 = u := by rw [← heq]
      have hnotin : m ∉ rest.map Prod.fst := hm1 ▸ hhead
      rw [addDayTokens_cons, lookup_addDayTokens_notMem rest _ m hnotin, hm1, hu,
        lookup_setKey_self]
    · have hmm : m ∈ rest.map Prod.fst := List.mem_map.mpr ⟨(m, u), hmem', rfl⟩
      have hne : m ≠ mu.1 := fun h => hhead (h ▸ hmm)
      rw [addDayTokens_cons, ih _ m u htail hmem', lookup_setKey_other mu.1 m _ dt hne]

/-! ## Lemmas about request-id deduplication -/

theorem foldl_accumTokensStep_dedup (lines : List UsageLine) :
    ∀ st : List String × List (String × TokenUsage),
      lines.foldl accumTokensStep st = (dedupFrom st.1 lines).foldl accumTokensStep st := by
  induction lines with
  | nil => intro st; rfl
  | cons l rest ih =>
    intro st
    cases hc : st.1.contains l.requestId with
    | true =>
      have hmem : l.requestId ∈ st.1 := by simpa using hc
      have hstep : accumTokensStep st l = st := by simp [accumTokensStep, hmem]
      simp only [dedupFrom, hc, if_true, List.foldl_cons, hstep]
      exact ih st
    | false =>
      have hmem : l.requestId ∉ st.1 := by simpa using hc
      have h1 : (accumTokensStep st l).1 = l.requestId :: st.1 := by
        simp [accumTokensStep, hmem]
      simp only [dedupFrom, hc, Bool.false_eq_true, if_false, List.foldl_cons]
      rw [ih (accumTokensStep st l), h1]

theorem dedupFrom_ids_nodup (lines : List UsageLine) :
    ∀ seen : List String,
      ((dedupFrom seen lines).map (fun l => l.requestId)).Nodup
      ∧ ∀ l ∈ dedupFrom seen lines, l.requestId ∉ seen := by
  induction lines with
  | nil => intro seen; simp [dedupFrom]
  | cons l rest ih =>
    intro seen
    cases hc : seen.contains l.requestId with
    | true =>
      have hmem : l.requestId ∈ seen := by simpa using hc
      simpa [dedupFrom, hmem] using ih seen
    | false =>
      obtain ⟨hnodup, hdisj⟩ := ih (l.requestId :: seen)
      have hnot : l.requestId ∉ seen := by
        simpa using hc
      simp only [dedupFrom, hc, Bool.false_eq_true, if_false, List.map_cons, List.nodup_cons]
      refine ⟨⟨?_, hnodup⟩, ?_⟩
      · intro hmem
        rcases List.mem_map.mp hmem with ⟨l', hl', heq⟩
        exact hdisj l' hl' (heq ▸ List.mem_cons_self _ _)
      · intro l' hl'
        rcases List.mem_cons.mp hl' with rfl | hl''
        · exact hnot
        · exact fun hc => hdisj l' hl'' (List.mem_cons_of_mem _ hc)

theorem dedupFrom_sublist (lines : List UsageLine) :
    ∀ seen : List String, List.Sublist (dedupFrom seen lines) lines := by
  induction lines with
  | nil => intro seen; simp [dedupFrom]
  | cons l rest ih =>
    intro seen
    cases hc : seen.contains l.requestId with
    | true =>
      have hmem : l.requestId ∈ seen := by simpa using hc
      simpa [dedupFrom, hmem] using (ih seen).cons l
    | false =>
      have hmem : l.requestId ∉ seen := by simpa using hc
      simpa [dedupFrom, hmem] using (ih (l.requestId :: seen)).cons₂ l

theorem dedupFrom_covers (lines : List UsageLine) :
    ∀ seen : List String, ∀ l ∈ lines,
      l.requestId ∈ seen
      ∨ ∃ l₀ ∈ dedupFrom seen lines, l₀.requestId = l.requestId := by
  induction lines with
  | nil => intro seen l hl; cases hl
  | cons x rest ih =>
    intro seen l hl
    cases hc : seen.contains x.requestId with
    | true =>
      have hmem : x.requestId ∈ seen := by simpa using hc
      rcases List.mem_cons.mp hl with hx | hl'
      · exact Or.inl (hx ▸ hmem)
      · rcases ih seen l hl' with hs | ⟨l₀, hl₀, heq⟩
        · exact Or.inl hs
        · exact Or.inr ⟨l₀, by simpa [dedupFrom, hmem] using hl₀, heq⟩
    | false =>
      have hmem : x.requestId ∉ seen := by simpa using hc
      have hx0 : x ∈ dedupFrom seen (x :: rest) := by
        simp [dedupFrom, hmem]
      rcases List.mem_cons.mp hl with hx | hl'
      · exact Or.inr ⟨x, hx0, by rw [hx]⟩
      · rcases ih (x.requestId :: seen) l hl' with hs | ⟨l₀, hl₀, heq⟩
        · rcases List.mem_cons.mp hs with heq' | hs'
          · exact Or.inr ⟨x, hx0, heq'.symm⟩
          · exact Or.inl hs'
        · refine Or.inr ⟨l₀, ?_, heq⟩
          simp [dedupFrom, hmem]
          exact Or.inr hl₀

/-! ## Settling the claims -/

/-- Claim C2: token accumulation during detail parsing is idempotent under
duplicate request identifiers — the totals over a log equal the totals over
the log with only the first line per request id kept; in that deduplicated
log every request id occurs exactly once, only original lines appear (in
order), and every request id of the log is still represented. -/
theorem token_accumulation_idempotent_under_duplicate_request_ids
    (lines : List UsageLine) :
    accumTokens lines = accumTokens (dedupByRequestId lines)
    ∧ ((dedupByRequestId lines).map fun l => l.requestId).Nodup
    ∧ List.Sublist (dedupByRequestId lines) lines
    ∧ ∀ l ∈ lines, ∃ l₀ ∈ dedupByRequestId lines, l₀.requestId = l.requestId := by
  refine ⟨?_, (dedupFrom_ids_nodup lines []).1, dedupFrom_sublist lines [], ?_⟩
  · unfold accumTokens dedupByRequestId
    rw [foldl_accumTokensStep_dedup lines ([], [])]
  · intro l hl
    rcases dedupFrom_covers lines [] l hl with hs | h
    · exact absurd hs (List.not_mem_nil _)
    · exact h

/-- Claim C3: the enrichment delta is exactly the sessions whose last-active
date is strictly after (JS string `>`) the snapshot's computation date, and
enrichment of a session set is enrichment of that filtered subset — sessions
dated on or before the cutoff contribute to nothing. -/
theorem enrichment_delta_strictly_after_cutoff
    (parseD : SessionSummaryWithPath → Option SessionDetail) (hourOf : String → String)
    (stats : StatsCache) (summaries : List SessionSummaryWithPath) :
    (∀ s : SessionSummaryWithPath,
        s ∈ recentSessionsOf stats summaries
          ↔ s ∈ summaries
            ∧ strLt (extractDateString stats.lastComputedDate)
                (sessionDate s.toSessionSummary))
    ∧ mergeRecentSessions parseD hourOf stats summaries
        = mergeRecentSessions parseD hourOf stats (recentSessionsOf stats summaries) := by
  constructor
  · intro s
    simp [recentSessionsOf, List.mem_filter]
  · have hidem : recentSessionsOf stats (recentSessionsOf stats summaries)
        = recentSessionsOf stats summaries := by
      simp [recentSessionsOf, List.filter_filter]
    simp only [mergeRecentSessions, hidem]

/-- Claim C7: every scan result is sorted by last-active time descending
(newest first), whatever the enumeration order of projects and files was —
both in the internal (with-paths) form and after stripping paths. -/
theorem scan_results_sorted_newest_first (env : ScanEnv) :
    List.Sorted (fun a b : SessionSummaryWithPath =>
        env.timeOf b.lastActiveAt ≤ env.timeOf a.lastActiveAt) (scanSessionsInternal env)
    ∧ List.Sorted (fun a b : SessionSummary =>
        env.timeOf b.lastActiveAt ≤ env.timeOf a.lastActiveAt) (scanAllSessions env) := by
  haveI : IsTotal SessionSummaryWithPath (fun a b =>
      env.timeOf b.lastActiveAt ≤ env.timeOf a.lastActiveAt) :=
    ⟨fun a b => Int.le_total _ _⟩
  haveI : IsTrans SessionSummaryWithPath (fun a b =>
      env.timeOf b.lastActiveAt ≤ env.timeOf a.lastActiveAt) :=
    ⟨fun _ _ _ hab hbc => le_trans hbc hab⟩
  have h1 : List.Sorted (fun a b : SessionSummaryWithPath =>
      env.timeOf b.lastActiveAt ≤ env.timeOf a.lastActiveAt) (scanSessionsInternal env) := by
    unfold scanSessionsInternal
    exact List.sorted_insertionSort _ _
  refine ⟨h1, ?_⟩
  unfold scanAllSessions
  exact List.Pairwise.map _ (fun a b h => h) h1

/-- Claim C9: the external-boundary scan form returns exactly the internal
records with the file path stripped (record-wise), and the internal form
keeps the path; the active-session list is the active subset of the
stripped records. -/
theorem external_scan_strips_paths (env : ScanEnv) :
    scanAllSessions env = (scanAllSessionsWithPaths env).map (fun r => r.toSessionSummary)
    ∧ scanAllSessionsWithPaths env = scanSessionsInternal env
    ∧ getActiveSessions env
        = ((scanSessionsInternal env).map fun r => r.toSessionSummary).filter
            (fun s => s.isActive)
    ∧ List.Forall₂ (fun (a : SessionSummary) (b : SessionSummaryWithPath) =>
          a = b.toSessionSummary) (scanAllSessions env) (scanAllSessionsWithPaths env) := by
  refine And.intro rfl (And.intro rfl (And.intro rfl ?_))
  have key : ∀ l : List SessionSummaryWithPath,
      List.Forall₂ (fun (a : SessionSummary) (b : SessionSummaryWithPath) =>
        a = b.toSessionSummary) (l.map fun r => r.toSessionSummary) l := by
    intro l
    induction l with
    | nil => exact List.Forall₂.nil
    | cons x xs ih => exact List.Forall₂.cons rfl ih
  exact key _

/-- Claim C10: enrichment only rewrites the seven aggregate fields — the
enriched snapshot keeps the input's `version`, `lastComputedDate` and
`firstSessionDate` (the embedding is pure, so the input value itself is
untouched; `mergeRecentSessions` folds over copies of the aggregates). -/
theorem enrichment_preserves_identity_fields
    (parseD : SessionSummaryWithPath → Option SessionDetail) (hourOf : String → String)
    (stats : StatsCache) (summaries : List SessionSummaryWithPath) :
    (mergeRecentSessions parseD hourOf stats summaries).version = stats.version
    ∧ (mergeRecentSessions parseD hourOf stats summaries).lastComputedDate
        = stats.lastComputedDate
    ∧ (mergeRecentSessions parseD hourOf stats summaries).firstSessionDate
        = stats.firstSessionDate := by
  unfold mergeRecentSessions
  cases h : (recentSessionsOf stats summaries).isEmpty <;> simp [h]

/-- Claim C1 (amended): for a recent session whose detail parse succeeded,
the enrichment loop (and the full-computation loop) adds to the per-day
per-model `dailyModelTokens` entry of the session's date exactly
`inputTokens + outputTokens` — the input and output categories only, the
two cache categories being excluded from daily totals (they do enter the
`modelUsage` aggregate). -/
theorem daily_model_tokens_add_input_output_only
    (hourOf : String → String) (detailMap : List (String × SessionDetail))
    (acc : MergeAcc) (cacc : ComputeAcc) (s : SessionSummaryWithPath)
    (detail : SessionDetail) (m : String) (u : TokenUsage)
    (hd : lookup? s.sessionId detailMap = some detail)
    (hnodup : (detail.tokensByModel.map Prod.fst).Nodup)
    (hm : (m, u) ∈ detail.tokensByModel) :
    lookup? m ((lookup? (sessionDate s.toSessionSummary)
        (mergeStep hourOf detailMap acc s).modelTokensMap).getD [])
      = some ((lookup? m ((lookup? (sessionDate s.toSessionSummary)
            acc.modelTokensMap).getD [])).getD 0
          + (u.inputTokens + u.outputTokens))
    ∧ lookup? m ((lookup? (sessionDate s.toSessionSummary)
        (computeStep hourOf detailMap cacc s).modelTokensMap).getD [])
      = some ((lookup? m ((lookup? (sessionDate s.toSessionSummary)
            cacc.modelTokensMap).getD [])).getD 0
          + (u.inputTokens + u.outputTokens)) := by
  constructor
  · have hmap : (mergeStep hourOf detailMap acc s).modelTokensMap
        = setKey (sessionDate s.toSessionSummary)
            (addDayTokens
              ((lookup? (sessionDate s.toSessionSummary) acc.modelTokensMap).getD [])
              detail.tokensByModel)
            acc.modelTokensMap := by
      simp only [mergeStep, hd]
    rw [hmap, lookup_setKey_self, Option.getD_some]
    exact lookup_addDayTokens_mem detail.tokensByModel _ m u hnodup hm
  · have hmap : (computeStep hourOf detailMap cacc s).modelTokensMap
        = setKey (sessionDate s.toSessionSummary)
            (addDayTokens
              ((lookup? (sessionDate s.toSessionSummary) cacc.modelTokensMap).getD [])
              detail.tokensByModel)
            cacc.modelTokensMap := by
      simp only [computeStep, hd]
    rw [hmap, lookup_setKey_self, Option.getD_some]
    exact lookup_addDayTokens_mem detail.tokensByModel _ m u hnodup hm

/-- A concrete snapshot for exercising claim C1: empty aggregates, computed
on 2026-01-01. -/
def statsC1 : StatsCache :=
  { version := 1, lastComputedDate := "2026-01-01T00:00:00Z", dailyActivity := [],
    dailyModelTokens := [], modelUsage := [], totalSessions := 0, totalMessages := 0,
    longestSession := ⟨"", 0, 0, ""⟩, firstSessionDate := "2026-01-01", hourCounts := [] }

/-- A concrete recent session for claim C1, last active 2026-01-02. -/
def sessC1 : SessionSummaryWithPath :=
  { sessionId := "s1", projectPath := "/p", projectName := "p",
    startedAt := "2026-01-02T09:00:00Z", lastActiveAt := some "2026-01-02T12:00:00Z",
    durationMs := 1000, messageCount := 4, isActive := false, filePath := "/p/s1.jsonl" }

/-- A concrete parsed detail for claim C1: model `m` used 1 input, 2 output,
3 cache-read, 4 cache-creation tokens. -/
def detailC1 : SessionDetail :=
  { turns := [], toolFrequency := [], tokensByModel := [("m", ⟨1, 2, 3, 4⟩)] }

/-- Claim C1, counterexample to the claim as stated: with usage
`⟨1, 2, 3, 4⟩` for model `m`, the per-day entry folded into
`dailyModelTokens` is `3 = 1 + 2`, not the four-category sum
`10 = 1 + 2 + 3 + 4` the claim asserts. -/
theorem daily_model_tokens_four_category_counterexample :
    dailyTokenEntry
        (mergeRecentSessions (fun _ => some detailC1) (fun _ => "9") statsC1 [sessC1])
        "2026-01-02" "m"
      ≠ some (1 + 2 + 3 + 4) := by decide

/-- Witness for claim C1's amended theorem at the concrete inputs above:
the folded entry is `3 = 1 + 2`, on both code paths. -/
theorem daily_model_tokens_add_input_output_only_witness :
    lookup? "m" ((lookup? (sessionDate sessC1.toSessionSummary)
        (mergeStep (fun _ => "9") [("s1", detailC1)]
          ⟨[], [], [], [], 0, ⟨"", 0, 0, ""⟩⟩ sessC1).modelTokensMap).getD [])
      = some 3
    ∧ lookup? "m" ((lookup? (sessionDate sessC1.toSessionSummary)
        (computeStep (fun _ => "9") [("s1", detailC1)]
          ⟨[], [], [], [], 0, ⟨"", 0, 0, ""⟩, none⟩ sessC1).modelTokensMap).getD [])
      = some 3 :=
  daily_model_tokens_add_input_output_only (fun _ => "9") [("s1", detailC1)]
    ⟨[], [], [], [], 0, ⟨"", 0, 0, ""⟩⟩ ⟨[], [], [], [], 0, ⟨"", 0, 0, ""⟩, none⟩
    sessC1 detailC1 "m" ⟨1, 2, 3, 4⟩ (by decide) (by decide) (by decide)

/-- Claim C4: a missing snapshot file, or one failing its read/parse/schema
validation while also absent from both cache tiers, is not fatal —
`parseStats` falls back to computing the aggregate from scratch; when the
session scan succeeds that computation yields a result whose computation
date is now. -/
theorem missing_or_invalid_snapshot_falls_back (env : StatsEnv) :
    (env.snapshotStat = none →
        parseStats env = computeStatsFromSessions env.parseD env.hourOf env.now env.scan)
    ∧ (∀ mtimeMs : Nat, env.snapshotStat = some mtimeMs →
        (∀ p, env.memCache = some p → p.1 ≠ mtimeMs) →
        env.diskCache mtimeMs = none →
        env.snapshotFileParse = none →
        parseStats env = computeStatsFromSessions env.parseD env.hourOf env.now env.scan)
    ∧ (∀ summaries, env.scan = some summaries →
        ∃ computed,
          computeStatsFromSessions env.parseD env.hourOf env.now env.scan = some computed
          ∧ computed.lastComputedDate = env.now) := by
  refine ⟨?_, ?_, ?_⟩
  · intro h
    simp [parseStats, h]
  · intro mtimeMs hstat hmem hdisk hfile
    cases hmc : env.memCache with
    | none => simp [parseStats, hstat, hmc, hdisk, hfile]
    | some p =>
      obtain ⟨m', data⟩ := p
      have hne : m' ≠ mtimeMs := hmem (m', data) hmc
      simp [parseStats, hstat, hmc, hdisk, hfile, hne]
  · intro summaries hscan
    rw [hscan]
    exact ⟨_, rfl, rfl⟩

/-- Concrete environment for claim C4's witness: the snapshot file exists
(mtime 7) but both cache tiers miss and its validation fails; the scan
succeeds with no sessions. -/
def envC4 : StatsEnv :=
  { snapshotStat := some 7, memCache := none, diskCache := fun _ => none,
    snapshotFileParse := none, scan := some [], parseD := fun _ => none,
    hourOf := fun _ => "0", today := "2026-02-02", now := "2026-02-02T10:00:00Z",
    nowMs := 0, mergedCache := none }

/-- Witness for claim C4 at `envC4`: invalid snapshot demotes to full
computation, which succeeds and is dated now. -/
theorem missing_or_invalid_snapshot_falls_back_witness :
    parseStats envC4 = computeStatsFromSessions envC4.parseD envC4.hourOf envC4.now envC4.scan
    ∧ ∃ computed,
        computeStatsFromSessions envC4.parseD envC4.hourOf envC4.now envC4.scan
          = some computed
        ∧ computed.lastComputedDate = envC4.now :=
  ⟨(missing_or_invalid_snapshot_falls_back envC4).2.1 7 rfl (fun p hp => by cases hp)
      rfl rfl,
   (missing_or_invalid_snapshot_falls_back envC4).2.2 [] rfl⟩

/-- Claim C5: when the snapshot is stale, the merge cache misses and the
enrichment scan fails, `maybeEnrichWithRecentSessions` returns the snapshot
exactly as read (also trivially when the snapshot is fresh). -/
theorem unenriched_snapshot_returned_on_merge_failure (env : StatsEnv)
    (stats : StatsCache) (mtimeMs : Nat)
    (hcache : mergedCacheHit env mtimeMs = none)
    (hscan : env.scan = none) :
    maybeEnrichWithRecentSessions env stats mtimeMs = stats := by
  unfold maybeEnrichWithRecentSessions
  by_cases hfresh : ¬ strLt (extractDateString stats.lastComputedDate) env.today
  · simp [hfresh]
  · simp [hfresh, hcache, hscan]

/-- Concrete environment for claim C5's witness: scan fails, no merge
cache. -/
def envC5 : StatsEnv :=
  { snapshotStat := some 3, memCache := none, diskCache := fun _ => none,
    snapshotFileParse := none, scan := none, parseD := fun _ => none,
    hourOf := fun _ => "0", today := "2026-02-02", now := "2026-02-02T10:00:00Z",
    nowMs := 0, mergedCache := none }

/-- Concrete stale snapshot for claim C5's witness. -/
def statsC5 : StatsCache :=
  { version := 1, lastComputedDate := "2026-01-01T00:00:00Z", dailyActivity := [],
    dailyModelTokens := [], modelUsage := [], totalSessions := 2, totalMessages := 9,
    longestSession := ⟨"x", 5, 3, "2026-01-01T01:00:00Z"⟩,
    firstSessionDate := "2025-12-01", hourCounts := [("9", 1)] }

/-- Witness for claim C5 at the concrete stale snapshot and failing scan. -/
theorem unenriched_snapshot_returned_on_merge_failure_witness :
    maybeEnrichWithRecentSessions envC5 statsC5 3 = statsC5 :=
  unenriched_snapshot_returned_on_merge_failure envC5 statsC5 3 rfl rfl

/-- Claim C6: a session in the enrichment delta whose detail parse failed is
still counted — its date bucket's session count goes up by one and its
message count by the cheap summary's message count — while the per-day token
entries, the `modelUsage` aggregate and the tool-call count are untouched. -/
theorem failed_detail_parse_counts_summary_only
    (hourOf : String → String) (detailMap : List (String × SessionDetail))
    (acc : MergeAcc) (s : SessionSummaryWithPath)
    (hfail : lookup? s.sessionId detailMap = none) :
    lookup? (sessionDate s.toSessionSummary) (mergeStep hourOf detailMap acc s).activityMap
      = some
          ⟨((lookup? (sessionDate s.toSessionSummary) acc.activityMap).getD
              ⟨0, 0, 0⟩).messageCount + s.messageCount,
           ((lookup? (sessionDate s.toSessionSummary) acc.activityMap).getD
              ⟨0, 0, 0⟩).sessionCount + 1,
           ((lookup? (sessionDate s.toSessionSummary) acc.activityMap).getD
              ⟨0, 0, 0⟩).toolCallCount⟩
    ∧ (mergeStep hourOf detailMap acc s).modelUsage = acc.modelUsage
    ∧ (∀ d m,
        lookup? m ((lookup? d (mergeStep hourOf detailMap acc s).modelTokensMap).getD [])
          = lookup? m ((lookup? d acc.modelTokensMap).getD []))
    ∧ (mergeStep hourOf detailMap acc s).additionalMessages
        = acc.additionalMessages + s.messageCount := by
  refine ⟨?_, ?_, ?_, ?_⟩
  · simp only [mergeStep, hfail]
    rw [lookup_setKey_self]
  · simp only [mergeStep, hfail]
  · intro d m
    simp only [mergeStep, hfail]
    by_cases hsome : (lookup? (sessionDate s.toSessionSummary) acc.modelTokensMap).isSome
    · rw [if_pos hsome]
    · rw [if_neg hsome]
      by_cases hd : d = sessionDate s.toSessionSummary
      · subst hd
        rw [lookup_setKey_self, Option.not_isSome_iff_eq_none.mp hsome]
        rfl
      · rw [lookup_setKey_other _ _ _ _ hd]
  · simp only [mergeStep, hfail]

/-- Concrete accumulator for claim C6's witness: one prior date bucket with
10 messages, 1 session, 2 tool calls; one prior token entry; one model in
the aggregate; 5 messages already added. -/
def accC6 : MergeAcc :=
  ⟨[("2026-01-02", ⟨10, 1, 2⟩)], [("2026-01-02", [("m", 7)])], [],
   [("m", ⟨1, 1, 1, 1⟩)], 5, ⟨"", 0, 0, ""⟩⟩

/-- Concrete delta session for claim C6's witness: summary message count 4;
its id is absent from the (empty) detail map, i.e. its detail parse
failed. -/
def sessC6 : SessionSummaryWithPath :=
  { sessionId := "s6", projectPath := "/p", projectName := "p",
    startedAt := "2026-01-02T09:00:00Z", lastActiveAt := some "2026-01-02T12:00:00Z",
    durationMs := 1000, messageCount := 4, isActive := false, filePath := "/p/s6.jsonl" }

/-- Witness for claim C6 at the concrete inputs: the bucket becomes
`⟨14, 2, 2⟩` (messages +4, sessions +1, tool calls unchanged), tokens and
model usage unchanged, 4 more messages counted. -/
theorem failed_detail_parse_counts_summary_only_witness :
    lookup? (sessionDate sessC6.toSessionSummary)
        (mergeStep (fun _ => "9") [] accC6 sessC6).activityMap = some ⟨14, 2, 2⟩
    ∧ (mergeStep (fun _ => "9") [] accC6 sessC6).modelUsage = accC6.modelUsage
    ∧ (∀ d m,
        lookup? m ((lookup? d (mergeStep (fun _ => "9") [] accC6 sessC6).modelTokensMap).getD [])
          = lookup? m ((lookup? d accC6.modelTokensMap).getD []))
    ∧ (mergeStep (fun _ => "9") [] accC6 sessC6).additionalMessages = 9 := by
  have h := failed_detail_parse_counts_summary_only (fun _ => "9") [] accC6 sessC6 rfl
  refine ⟨?_, h.2.1, h.2.2.1, ?_⟩
  · rw [h.1]
    decide
  · rw [h.2.2.2]
    decide

/-- Claim C8: with an unchanged modification time the scanner reuses the
cached summary without re-parsing, recomputing only the active flag, and
leaves the cache untouched; a changed modification time forces a fresh
parse whose result (with freshly computed active flag) replaces the cache
entry. -/
theorem summary_cache_reuse_and_refresh (env : ScanEnv) (project : Project)
    (cache : List (String × (Nat × SessionSummary)))
    (summaries : List SessionSummaryWithPath) (file : String) (stat : FileStat)
    (hstat : env.statOf project.dirName file = some stat) :
    (∀ mt cachedSummary,
        lookup? (env.extractSessionId file) cache = some (mt, cachedSummary) →
        mt = stat.mtimeMs →
        scanFileStep env project (cache, summaries) file
          = (cache,
             summaries ++
               [⟨{ cachedSummary with
                    isActive := env.isActive project.dirName (env.extractSessionId file) },
                  env.pathOf project.dirName file⟩]))
    ∧ (∀ mt cachedSummary summary,
        lookup? (env.extractSessionId file) cache = some (mt, cachedSummary) →
        mt ≠ stat.mtimeMs →
        env.parseSummary (env.pathOf project.dirName file) (env.extractSessionId file)
            project.decodedPath project.projectName stat.size = some summary →
        scanFileStep env project (cache, summaries) file
          = (setKey (env.extractSessionId file)
               (stat.mtimeMs,
                { summary with
                  isActive := env.isActive project.dirName (env.extractSessionId file) })
               cache,
             summaries ++
               [⟨{ summary with
                    isActive := env.isActive project.dirName (env.extractSessionId file) },
                  env.pathOf project.dirName file⟩])) := by
  constructor
  · intro mt cachedSummary hlk hmt
    simp only [scanFileStep, hstat, hlk, hmt, if_pos]
  · intro mt cachedSummary summary hlk hmt hparse
    simp only [scanFileStep, hstat, hlk, hparse, if_neg hmt]

/-- Concrete cached summary for claim C8's witness. -/
def sumC8 : SessionSummary :=
  { sessionId := "s8", projectPath := "/p", projectName := "p",
    startedAt := "2026-01-01T00:00:00Z", lastActiveAt := some "2026-01-01T01:00:00Z",
    durationMs := 5, messageCount := 2, isActive := false }

/-- Concrete freshly-parsed summary for claim C8's witness. -/
def sumC8f : SessionSummary :=
  { sessionId := "s8", projectPath := "/p", projectName := "p",
    startedAt := "2026-01-01T00:00:00Z", lastActiveAt := some "2026-01-01T02:00:00Z",
    durationMs := 9, messageCount := 3, isActive := false }

/-- Concrete scan environment for claim C8's witness: the summary cache
holds session `f` at mtime 5; the detector reports active; the parser
would return `sumC8f`. -/
def envC8 : ScanEnv :=
  { projects := [⟨"d", "/p", "p", ["f"]⟩],
    statOf := fun _ _ => some ⟨5, 100⟩,
    summaryCache := [("f", (5, sumC8))],
    isActive := fun _ _ => true,
    parseSummary := fun _ _ _ _ _ => some sumC8f,
    extractSessionId := fun f => f,
    pathOf := fun d f => d ++ "/" ++ f,
    timeOf := fun _ => 0 }

/-- Like `envC8` but the file's modification time moved to 6, so the cached
entry at mtime 5 is outdated. -/
def envC8m : ScanEnv :=
  { envC8 with statOf := fun _ _ => some ⟨6, 100⟩ }

/-- Witness for claim C8 at the concrete environments: same mtime reuses
the cached summary with a refreshed active flag and an unchanged cache;
changed mtime re-parses and replaces the cache entry. -/
theorem summary_cache_reuse_and_refresh_witness :
    scanFileStep envC8 ⟨"d", "/p", "p", ["f"]⟩ (envC8.summaryCache, []) "f"
      = (envC8.summaryCache,
         [] ++ [⟨{ sumC8 with isActive := envC8.isActive "d" (envC8.extractSessionId "f") },
            envC8.pathOf "d" "f"⟩])
    ∧ scanFileStep envC8m ⟨"d", "/p", "p", ["f"]⟩ (envC8m.summaryCache, []) "f"
      = (setKey (envC8m.extractSessionId "f")
           (6, { sumC8f with isActive := envC8m.isActive "d" (envC8m.extractSessionId "f") })
           envC8m.summaryCache,
         [] ++ [⟨{ sumC8f with isActive := envC8m.isActive "d" (envC8m.extractSessionId "f") },
            envC8m.pathOf "d" "f"⟩]) :=
  ⟨(summary_cache_reuse_and_refresh envC8 ⟨"d", "/p", "p", ["f"]⟩ envC8.summaryCache []
      "f" ⟨5, 100⟩ rfl).1 5 sumC8 (by decide) rfl,
   (summary_cache_reuse_and_refresh envC8m ⟨"d", "/p", "p", ["f"]⟩ envC8m.summaryCache []
      "f" ⟨6, 100⟩ rfl).2 5 sumC8 sumC8f (by decide) (by decide) rfl⟩

end Dashboard
